import Mathlib

/-!
Verification of the conventional-commit message logic of `smart-commit`
(`src/main.go`), shallowly embedded in Lean 4.

Strings are modelled as `List Char`.  The Go code works on UTF-8 bytes, but
every character the algorithms inspect (commit types, keywords, `'.'`, `':'`,
`' '`, `'\t'`, `'\n'`) is ASCII, so the character-level model agrees with the
byte-level code on all ASCII inputs; `strings.ToLower` and the first-byte
lower-casing are modelled by an ASCII case table, and `strings.TrimSpace` by
the white-space set Go uses in the Latin-1 range.
-/

/-- Case table of the ASCII upper-case letters and their lower-case forms. -/
def asciiUpperLower : List (Char × Char) :=
  [('A','a'), ('B','b'), ('C','c'), ('D','d'), ('E','e'), ('F','f'), ('G','g'),
   ('H','h'), ('I','i'), ('J','j'), ('K','k'), ('L','l'), ('M','m'), ('N','n'),
   ('O','o'), ('P','p'), ('Q','q'), ('R','r'), ('S','s'), ('T','t'), ('U','u'),
   ('V','v'), ('W','w'), ('X','x'), ('Y','y'), ('Z','z')]

/-- ASCII lower-casing of a single character, modelling Go's `strings.ToLower`
restricted to the ASCII range (non-ASCII characters are left unchanged). -/
def asciiToLower (c : Char) : Char :=
  ((asciiUpperLower.find? (fun p => p.1 == c)).map Prod.snd).getD c

/-- Whole-string lower-casing (`strings.ToLower` on the ASCII fragment). -/
def lowerStr (s : List Char) : List Char := s.map asciiToLower

/-- White-space predicate of Go's `unicode.IsSpace` in the Latin-1 range:
TAB, LF, VT, FF, CR, SP, NEL, NBSP. -/
def isSpaceChar (c : Char) : Bool :=
  c == '\t' || c == '\n' || c == Char.ofNat 11 || c == Char.ofNat 12 ||
  c == '\r' || c == ' ' || c == Char.ofNat 133 || c == Char.ofNat 160

/-- Go's `strings.TrimSpace`: drop white space from both ends. -/
def trimSpace (s : List Char) : List Char :=
  ((s.dropWhile isSpaceChar).reverse.dropWhile isSpaceChar).reverse

/-- Lower-case only the first character, leaving the rest unchanged
(`strings.ToLower(description[:1]) + description[1:]` in `main.go`). -/
def lowerFirst (s : List Char) : List Char :=
  match s with
  | [] => []
  | c :: rest => asciiToLower c :: rest

/-- Go's `strings.Contains s sub`: `sub` occurs as a contiguous substring. -/
def goContains (s sub : List Char) : Bool :=
  match s with
  | [] => sub.isEmpty
  | _ :: t => List.isPrefixOf sub s || goContains t sub

/-- Character class `[a-z0-9-]` of the scope group in the commit regex. -/
def isScopeChar (c : Char) : Bool :=
  ('a' ≤ c && c ≤ 'z') || ('0' ≤ c && c ≤ '9') || c == '-'

/-- The eleven commit types of the regex alternation in `main.go` line 69. -/
def commitTypes : List (List Char) :=
  [("feat".toList), ("fix".toList), ("docs".toList), ("style".toList),
   ("refactor".toList), ("test".toList), ("chore".toList), ("perf".toList),
   ("ci".toList), ("build".toList), ("revert".toList)]

/-- Parse the part of the pattern after the type: an optional scope
`\([a-z0-9-]+\)` followed by the literal `": "`; returns what remains. -/
def afterScope (r : List Char) : Option (List Char) :=
  match r with
  | ':' :: ' ' :: rest => some rest
  | '(' :: rest =>
      match rest.takeWhile isScopeChar, rest.dropWhile isScopeChar with
      | _ :: _, ')' :: ':' :: ' ' :: rest2 => some rest2
      | _, _ => none
  | _ => none

/-- Tail of the compiled (unanchored) pattern: after `": "` the `.+` needs at
least one character, and `.` does not match a newline. -/
def matchAfterType (r : List Char) : Bool :=
  match afterScope r with
  | some (c :: _) => !(c == '\n')
  | some [] => false
  | none => false

/-- Go's `conventionalFormat.MatchString message`: the compiled pattern
`^(feat|fix|docs|style|refactor|test|chore|perf|ci|build|revert)(\([a-z0-9-]+\))?: .+`
has a start anchor but no end anchor, so it tests a prefix of the message. -/
def matchesConventional (message : List Char) : Bool :=
  commitTypes.any (fun t =>
    List.isPrefixOf t message && matchAfterType (message.drop t.length))

/-- Modelled from the spec: tail of the spec's end-anchored grammar
`^...(\([a-z0-9-]+\))?: .+$`, where every remaining character must be matched
by `.+` (so no newline anywhere and at least one character). -/
def matchTailAnchored (r : List Char) : Bool :=
  match afterScope r with
  | some rest => !(List.isEmpty rest) && rest.all (fun ch => !(ch == '\n'))
  | none => false

/-- Modelled from the spec: the fully anchored conventional-commit grammar
`^(feat|fix|docs|style|refactor|test|chore|perf|ci|build|revert)(\([a-z0-9-]+\))?: .+$`. -/
def matchesConventionalAnchored (message : List Char) : Bool :=
  commitTypes.any (fun t =>
    List.isPrefixOf t message && matchTailAnchored (message.drop t.length))

/-- Go's `determineCommitType` (`main.go` lines 95-118): keyword heuristic over
the lower-cased diff text, first match wins, default `"chore"`. -/
def determineCommitType (changes : List Char) : List Char :=
  let lowerChanges := lowerStr changes
  if goContains lowerChanges ("test".toList) || goContains lowerChanges ("_test.go".toList) then
    ("test".toList)
  else if goContains lowerChanges ("fix".toList) || goContains lowerChanges ("bug".toList) then
    ("fix".toList)
  else if goContains lowerChanges ("feat".toList) || goContains lowerChanges ("add".toList) ||
      goContains lowerChanges ("new".toList) then
    ("feat".toList)
  else if goContains lowerChanges ("doc".toList) || goContains lowerChanges ("readme".toList) then
    ("docs".toList)
  else if goContains lowerChanges ("refactor".toList) then
    ("refactor".toList)
  else if goContains lowerChanges ("style".toList) || goContains lowerChanges ("format".toList) then
    ("style".toList)
  else
    ("chore".toList)

/-- Description extraction step of `enforceConventionalCommit` (`main.go`
lines 80-83): the part before the first `'.'` when that dot sits at an index
greater than zero, otherwise the whole message. -/
def descSource (message : List Char) : List Char :=
  match message.findIdx? (fun ch => ch == '.') with
  | some idx => if 0 < idx then message.take idx else message
  | none => message

/-- Go's `enforceConventionalCommit` (`main.go` lines 67-92). -/
def enforceConventionalCommit (message changes : List Char) : List Char :=
  if matchesConventional message then message
  else
    let commitType := determineCommitType changes
    let description := lowerFirst (trimSpace (descSource message))
    commitType ++ (": ".toList) ++ description

/-- Go's `extractChangedFiles` (`main.go` lines 179-194): split the diff
summary into lines, skip empty lines, split each line on TAB and keep the
second field when there are at least two fields. -/
def extractChangedFiles (changes : List Char) : List (List Char) :=
  (changes.splitOn '\n').filterMap (fun line =>
    if line.isEmpty then none
    else
      let parts := line.splitOn '\t'
      if 2 ≤ parts.length then parts[1]? else none)

/-- Go's local `min` helper (`main.go` lines 197-202), on the lengths used. -/
def goMin (a b : Nat) : Nat := if a < b then a else b

/-- Go's `strings.Join` with a separator. -/
def joinSep (sep : List Char) : List (List Char) → List Char
  | [] => []
  | [x] => x
  | x :: xs => x ++ sep ++ joinSep sep xs

/-- Fallback commit message built in `main` (`main.go` lines 42-43):
`"chore: changes to "` followed by at most the first five changed files,
comma-joined. -/
def fallbackMessage (changes : List Char) : List Char :=
  let changedFiles := extractChangedFiles changes
  ("chore: changes to ".toList) ++
    joinSep (", ".toList) (changedFiles.take (goMin changedFiles.length 5))

/-- Prompt built in `main` (`main.go` line 34). -/
def promptFor (changes : List Char) : List Char :=
  ("Generate a concise git commit message following conventional commit format (type(scope): description) for these changes. Use types like feat, fix, docs, style, refactor, test, chore. The changes are: ".toList) ++ changes

/-- Outcomes of the external steps inside `generateCommitMessage`: whether
creating the temp file, writing the prompt, and running the oracle succeed,
and the oracle's raw standard output. -/
structure OracleEnv where
  createOK : Bool
  writeOK : Bool
  runOK : Bool
  output : List Char
deriving DecidableEq

/-- File-system-visible events of `generateCommitMessage`, in order. -/
inductive GenEvent
  | createTemp
  | writePrompt (p : List Char)
  | closeTemp
  | invokeOracle
  | removeTemp
deriving DecidableEq

/-- Result of `generateCommitMessage`: the ordered event trace and the
returned message (`none` models a returned error). -/
structure GenResult where
  events : List GenEvent
  result : Option (List Char)
deriving DecidableEq

/-- Go's `generateCommitMessage` (`main.go` lines 151-177): create a temp
file (deferring its removal), write the prompt, close, pipe it into the
oracle, trim the output.  Each early `return` still fires the deferred
`os.Remove`. -/
def generateCommitMessage (env : OracleEnv) (prompt : List Char) : GenResult :=
  if !env.createOK then
    { events := [], result := none }
  else if !env.writeOK then
    { events := [GenEvent.createTemp, GenEvent.writePrompt prompt, GenEvent.removeTemp],
      result := none }
  else if !env.runOK then
    { events := [GenEvent.createTemp, GenEvent.writePrompt prompt, GenEvent.closeTemp,
                 GenEvent.invokeOracle, GenEvent.removeTemp],
      result := none }
  else
    { events := [GenEvent.createTemp, GenEvent.writePrompt prompt, GenEvent.closeTemp,
                 GenEvent.invokeOracle, GenEvent.removeTemp],
      result := some (trimSpace env.output) }

/-- Does the temporary file exist after replaying an event trace? -/
def tempAliveAfter (evs : List GenEvent) : Bool :=
  evs.foldl (fun st e =>
    match e with
    | GenEvent.createTemp => true
    | GenEvent.removeTemp => false
    | _ => st) false

/-- External actions `main` can attempt, in program order. -/
inductive GitAction
  | checkCopilot
  | gitAdd
  | gitDiff
  | genMessage
  | commit (msg : List Char)
  | push
deriving DecidableEq

/-- Outcomes of the external collaborators for one run of `main`:
`diffOut = none` models a failing `git diff --cached --name-status`. -/
structure World where
  copilotOK : Bool
  gitAddOK : Bool
  diffOut : Option (List Char)
  oracle : OracleEnv
  commitOK : Bool
  pushOK : Bool

/-- Exit status and the ordered trace of attempted external actions. -/
structure RunOutcome where
  exitCode : Nat
  actions : List GitAction

/-- Go's `main` (`main.go` lines 12-64): preflight check, stage, diff,
generate (falling back to `fallbackMessage` when the oracle invocation
fails), normalize, commit, push; every other failure exits with status 1. -/
def runMain (w : World) : RunOutcome :=
  if !w.copilotOK then
    { exitCode := 1, actions := [GitAction.checkCopilot] }
  else if !w.gitAddOK then
    { exitCode := 1, actions := [GitAction.checkCopilot, GitAction.gitAdd] }
  else
    match w.diffOut with
    | none => { exitCode := 1, actions := [GitAction.checkCopilot, GitAction.gitAdd, GitAction.gitDiff] }
    | some changes =>
        let gen := generateCommitMessage w.oracle (promptFor changes)
        let commitMsg :=
          match gen.result with
          | some m => m
          | none => fallbackMessage changes
        let finalMsg := enforceConventionalCommit commitMsg changes
        if !w.commitOK then
          { exitCode := 1,
            actions := [GitAction.checkCopilot, GitAction.gitAdd, GitAction.gitDiff,
                        GitAction.genMessage, GitAction.commit finalMsg] }
        else if !w.pushOK then
          { exitCode := 1,
            actions := [GitAction.checkCopilot, GitAction.gitAdd, GitAction.gitDiff,
                        GitAction.genMessage, GitAction.commit finalMsg, GitAction.push] }
        else
          { exitCode := 0,
            actions := [GitAction.checkCopilot, GitAction.gitAdd, GitAction.gitDiff,
                        GitAction.genMessage, GitAction.commit finalMsg, GitAction.push] }

/-- Dropping a while-prefix leaves a head on which the predicate fails. -/
lemma dropWhile_head_false (p : Char → Bool) :
    ∀ (s : List Char) (c : Char) (rest : List Char),
      s.dropWhile p = c :: rest → p c = false := by
  intro s
  induction s with
  | nil => intro c rest h; simp [List.dropWhile] at h
  | cons a t ih =>
      intro c rest h
      rw [List.dropWhile_cons] at h
      split at h
      · exact ih c rest h
      · injection h with h1 h2
        subst h1
        rename_i hnp
        simpa using hnp

/-- Two-sided trimming yields a prefix of the left-trimmed list. -/
lemma trimSpace_pre (s : List Char) :
    trimSpace s <+: s.dropWhile isSpaceChar := by
  unfold trimSpace
  have h := List.dropWhile_suffix (l := (s.dropWhile isSpaceChar).reverse) isSpaceChar
  have h2 := List.reverse_prefix.mpr h
  rwa [List.reverse_reverse] at h2

/-- The head of a nonempty trimmed string is not white space. -/
lemma trimSpace_head_false (s : List Char) (c : Char) (rest : List Char)
    (h : trimSpace s = c :: rest) : isSpaceChar c = false := by
  obtain ⟨t', ht'⟩ := trimSpace_pre s
  rw [h] at ht'
  exact dropWhile_head_false isSpaceChar s c (rest ++ t') ht'.symm

/-- A character that is not white space stays distinct from a newline after
ASCII lower-casing. -/
lemma asciiToLower_ne_newline (c : Char) (h : isSpaceChar c = false) :
    (asciiToLower c == '\n') = false := by
  have hc : (c == '\n') = false := by
    simp only [isSpaceChar, Bool.or_eq_false_iff, and_assoc] at h
    exact h.2.1
  unfold asciiToLower
  cases hf : asciiUpperLower.find? (fun p => p.1 == c) with
  | none => simpa using hc
  | some p =>
      have hp := List.mem_of_find?_eq_some hf
      fin_cases hp <;> rfl

/-- `determineCommitType` returns one of its seven literal results. -/
lemma determineCommitType_cases (changes : List Char) :
    determineCommitType changes = ("test".toList) ∨
    determineCommitType changes = ("fix".toList) ∨
    determineCommitType changes = ("feat".toList) ∨
    determineCommitType changes = ("docs".toList) ∨
    determineCommitType changes = ("refactor".toList) ∨
    determineCommitType changes = ("style".toList) ∨
    determineCommitType changes = ("chore".toList) := by
  simp only [determineCommitType]
  split_ifs <;> tauto

/-- The seven heuristic results all belong to the regex's type alternation. -/
lemma determineCommitType_mem (changes : List Char) :
    determineCommitType changes ∈ commitTypes := by
  rcases determineCommitType_cases changes with h | h | h | h | h | h | h <;>
    rw [h] <;> decide

/-- A commit type followed by `": "` and a non-newline character matches the
compiled (prefix) pattern. -/
lemma matches_shape (ty : List Char) (hty : ty ∈ commitTypes) (c : Char)
    (rest : List Char) (hc : (c == '\n') = false) :
    matchesConventional (ty ++ (": ".toList) ++ (c :: rest)) = true := by
  unfold matchesConventional
  rw [List.any_eq_true]
  refine ⟨ty, hty, ?_⟩
  rw [List.append_assoc, Bool.and_eq_true]
  constructor
  · rw [ List.isPrefixOf_iff_prefix]
    exact List.prefix_append ty _
  · rw [List.drop_left]
    show matchAfterType (':' :: ' ' :: c :: rest) = true
    have h1 : matchAfterType (':' :: ' ' :: c :: rest) = !(c == '\n') := rfl
    rw [h1, hc]
    rfl

/-- Taking `min (length l) 5` elements is the same as taking 5. -/
lemma take_goMin (l : List (List Char)) :
    l.take (goMin l.length 5) = l.take 5 := by
  unfold goMin
  split
  · rename_i h
    rw [List.take_length, List.take_of_length_le (Nat.le_of_lt h)]
  · rfl

/-- An end-anchored tail match is in particular a prefix tail match. -/
lemma anchored_tail_imp (r : List Char) (h : matchTailAnchored r = true) :
    matchAfterType r = true := by
  unfold matchTailAnchored at h
  unfold matchAfterType
  cases hA : afterScope r with
  | none => rw [hA] at h; exact Bool.noConfusion h
  | some rest =>
      rw [hA] at h
      cases rest with
      | nil => exact Bool.noConfusion h
      | cons c cs =>
          have h' : (!((c :: cs).isEmpty) && (c :: cs).all (fun ch => !(ch == '\n'))) = true := h
          rw [Bool.and_eq_true] at h'
          have h2 := h'.2
          rw [List.all_cons, Bool.and_eq_true] at h2
          exact h2.1

/-- A message matching the spec's anchored grammar also matches the code's
prefix pattern. -/
lemma anchored_imp (m : List Char) (h : matchesConventionalAnchored m = true) :
    matchesConventional m = true := by
  unfold matchesConventionalAnchored at h
  unfold matchesConventional
  rw [List.any_eq_true] at h
  rw [List.any_eq_true]
  obtain ⟨t, ht, hp⟩ := h
  rw [Bool.and_eq_true] at hp
  refine ⟨t, ht, ?_⟩
  rw [Bool.and_eq_true]
  exact ⟨hp.1, anchored_tail_imp _ hp.2⟩

/-- C1 (counterexample): the empty message does not match the grammar, yet the
normalizer's output `"chore: "` does not match it either, refuting "for every
non-matching message the output matches the grammar". -/
theorem claim_C1_counterexample :
    matchesConventional ([] : List Char) = false ∧
    matchesConventional (enforceConventionalCommit [] []) = false :=
  ⟨by decide, by decide⟩

/-- C1 (amended): for every candidate message that does not match the compiled
grammar and whose derived description is nonempty after trimming, the output of
`enforceConventionalCommit` (for any diff-summary text) matches the compiled
(prefix-anchored) grammar. -/
theorem claim_C1_enforce_rewrite_matches (message changes : List Char)
    (hm : matchesConventional message = false)
    (hne : trimSpace (descSource message) ≠ []) :
    matchesConventional (enforceConventionalCommit message changes) = true := by
  have hout : enforceConventionalCommit message changes =
      determineCommitType changes ++ (": ".toList) ++
        lowerFirst (trimSpace (descSource message)) := by
    simp [enforceConventionalCommit, hm]
  cases hd : trimSpace (descSource message) with
  | nil => exact absurd hd hne
  | cons c rest =>
      rw [hout, hd]
      have hc : isSpaceChar c = false := trimSpace_head_false _ _ _ hd
      have hc' := asciiToLower_ne_newline c hc
      show matchesConventional
        (determineCommitType changes ++ (": ".toList) ++ (asciiToLower c :: rest)) = true
      exact matches_shape _ (determineCommitType_mem changes) _ _ hc'

/-- C1 (witness): the amended theorem evaluated on a concrete rewrite. -/
theorem claim_C1_witness :
    matchesConventional (enforceConventionalCommit ("WIP".toList) ("bugfix".toList)) = true :=
  claim_C1_enforce_rewrite_matches ("WIP".toList) ("bugfix".toList) (by decide) (by decide)

/-- C2: a message matching the spec's anchored conventional-commit grammar is
returned unchanged by `enforceConventionalCommit`, for any diff-summary text. -/
theorem claim_C2_anchored_pass_through (message changes : List Char)
    (h : matchesConventionalAnchored message = true) :
    enforceConventionalCommit message changes = message := by
  simp [enforceConventionalCommit, anchored_imp message h]

/-- C2 (witness): identity pass-through on a concrete matching message. -/
theorem claim_C2_witness :
    enforceConventionalCommit ("feat(api): add flow".toList) ("x".toList) =
      ("feat(api): add flow".toList) :=
  claim_C2_anchored_pass_through _ _ (by decide)

/-- C3 (counterexample): a text containing both "fix" and "feat" tokens (and
also "test") is classified as `test`, not `fix`, refuting the claim's
universal "for every text containing both fix and feat the type is fix". -/
theorem claim_C3_counterexample :
    goContains (lowerStr ("fix feat test".toList)) ("fix".toList) = true ∧
    goContains (lowerStr ("fix feat test".toList)) ("feat".toList) = true ∧
    determineCommitType ("fix feat test".toList) ≠ ("fix".toList) :=
  ⟨by decide, by decide, by decide⟩

/-- C3 (amended): `determineCommitType` checks keywords over the lower-cased
text in the fixed priority order test, fix, feat, docs, refactor, style with
first match winning and default `chore`; the empty text yields `chore`; and
every text containing "fix" and "feat" tokens but no test keyword yields
`fix`. -/
theorem claim_C3_priority :
    (∀ text, (goContains (lowerStr text) ("test".toList) ||
        goContains (lowerStr text) ("_test.go".toList)) = true →
      determineCommitType text = ("test".toList)) ∧
    (∀ text, (goContains (lowerStr text) ("test".toList) ||
        goContains (lowerStr text) ("_test.go".toList)) = false →
      (goContains (lowerStr text) ("fix".toList) ||
        goContains (lowerStr text) ("bug".toList)) = true →
      determineCommitType text = ("fix".toList)) ∧
    (∀ text, (goContains (lowerStr text) ("test".toList) ||
        goContains (lowerStr text) ("_test.go".toList)) = false →
      (goContains (lowerStr text) ("fix".toList) ||
        goContains (lowerStr text) ("bug".toList)) = false →
      (goContains (lowerStr text) ("feat".toList) ||
        goContains (lowerStr text) ("add".toList) ||
        goContains (lowerStr text) ("new".toList)) = true →
      determineCommitType text = ("feat".toList)) ∧
    (∀ text, (goContains (lowerStr text) ("test".toList) ||
        goContains (lowerStr text) ("_test.go".toList)) = false →
      (goContains (lowerStr text) ("fix".toList) ||
        goContains (lowerStr text) ("bug".toList)) = false →
      (goContains (lowerStr text) ("feat".toList) ||
        goContains (lowerStr text) ("add".toList) ||
        goContains (lowerStr text) ("new".toList)) = false →
      (goContains (lowerStr text) ("doc".toList) ||
        goContains (lowerStr text) ("readme".toList)) = true →
      determineCommitType text = ("docs".toList)) ∧
    (∀ text, (goContains (lowerStr text) ("test".toList) ||
        goContains (lowerStr text) ("_test.go".toList)) = false →
      (goContains (lowerStr text) ("fix".toList) ||
        goContains (lowerStr text) ("bug".toList)) = false →
      (goContains (lowerStr text) ("feat".toList) ||
        goContains (lowerStr text) ("add".toList) ||
        goContains (lowerStr text) ("new".toList)) = false →
      (goContains (lowerStr text) ("doc".toList) ||
        goContains (lowerStr text) ("readme".toList)) = false →
      goContains (lowerStr text) ("refactor".toList) = true →
      determineCommitType text = ("refactor".toList)) ∧
    (∀ text, (goContains (lowerStr text) ("test".toList) ||
        goContains (lowerStr text) ("_test.go".toList)) = false →
      (goContains (lowerStr text) ("fix".toList) ||
        goContains (lowerStr text) ("bug".toList)) = false →
      (goContains (lowerStr text) ("feat".toList) ||
        goContains (lowerStr text) ("add".toList) ||
        goContains (lowerStr text) ("new".toList)) = false →
      (goContains (lowerStr text) ("doc".toList) ||
        goContains (lowerStr text) ("readme".toList)) = false →
      goContains (lowerStr text) ("refactor".toList) = false →
      (goContains (lowerStr text) ("style".toList) ||
        goContains (lowerStr text) ("format".toList)) = true →
      determineCommitType text = ("style".toList)) ∧
    (∀ text, (goContains (lowerStr text) ("test".toList) ||
        goContains (lowerStr text) ("_test.go".toList)) = false →
      (goContains (lowerStr text) ("fix".toList) ||
        goContains (lowerStr text) ("bug".toList)) = false →
      (goContains (lowerStr text) ("feat".toList) ||
        goContains (lowerStr text) ("add".toList) ||
        goContains (lowerStr text) ("new".toList)) = false →
      (goContains (lowerStr text) ("doc".toList) ||
        goContains (lowerStr text) ("readme".toList)) = false →
      goContains (lowerStr text) ("refactor".toList) = false →
      (goContains (lowerStr text) ("style".toList) ||
        goContains (lowerStr text) ("format".toList)) = false →
      determineCommitType text = ("chore".toList)) ∧
    determineCommitType [] = ("chore".toList) ∧
    (∀ text, goContains (lowerStr text) ("fix".toList) = true →
      goContains (lowerStr text) ("feat".toList) = true →
      (goContains (lowerStr text) ("test".toList) ||
        goContains (lowerStr text) ("_test.go".toList)) = false →
      determineCommitType text = ("fix".toList)) := by
  refine ⟨?_, ?_, ?_, ?_, ?_, ?_, ?_, by decide, ?_⟩
  · intro text h1
    simp_all [determineCommitType]
  · intro text h1 h2
    simp_all [determineCommitType]
  · intro text h1 h2 h3
    simp_all [determineCommitType]
  · intro text h1 h2 h3 h4
    simp_all [determineCommitType]
  · intro text h1 h2 h3 h4 h5
    simp_all [determineCommitType]
  · intro text h1 h2 h3 h4 h5 h6
    simp_all [determineCommitType]
  · intro text h1 h2 h3 h4 h5 h6
    simp_all [determineCommitType]
  · intro text hf hft ht
    simp_all [determineCommitType]

/-- C3 (witness): the amended fix-over-feat priority at a concrete text. -/
theorem claim_C3_witness :
    determineCommitType ("fix feat stuff".toList) = ("fix".toList) :=
  claim_C3_priority.2.2.2.2.2.2.2.2 ("fix feat stuff".toList) (by decide) (by decide) (by decide)

/-- C4: on the rewrite path the output is exactly the heuristic type, `": "`,
and the description obtained by cutting at the first dot (when at a positive
index), trimming, and lower-casing only the first character; lower-casing
touches nothing past the first character, and `"Added X.Y"` yields the
description `"added X"`. -/
theorem claim_C4_description :
    (∀ message changes, matchesConventional message = false →
      enforceConventionalCommit message changes =
        determineCommitType changes ++ (": ".toList) ++
          lowerFirst (trimSpace (descSource message))) ∧
    (∀ s, List.drop 1 (lowerFirst s) = List.drop 1 s) ∧
    lowerFirst (trimSpace (descSource ("Added X.Y".toList))) = ("added X".toList) ∧
    enforceConventionalCommit ("Added X.Y".toList) [] = ("chore: added X".toList) := by
  refine ⟨?_, ?_, by decide, by decide⟩
  · intro message changes h
    simp [enforceConventionalCommit, h]
  · intro s
    cases s <;> rfl

/-- C4 (witness): the rewrite-path equation evaluated on a concrete input. -/
theorem claim_C4_witness :
    enforceConventionalCommit ("Improve logging. Done".toList) ("style".toList) =
      determineCommitType ("style".toList) ++ (": ".toList) ++
        lowerFirst (trimSpace (descSource ("Improve logging. Done".toList))) :=
  claim_C4_description.1 _ _ (by decide)

/-- C5: the fallback synthesizer splits lines on TAB, keeps second fields,
skips short or empty records, and builds `"chore: changes to <files>"` from at
most the first five extracted paths; empty input gives an empty list and the
bare message. -/
theorem claim_C5_fallback :
    (∀ changes, fallbackMessage changes =
      ("chore: changes to ".toList) ++
        joinSep (", ".toList) ((extractChangedFiles changes).take 5)) ∧
    extractChangedFiles [] = [] ∧
    fallbackMessage [] = ("chore: changes to ".toList) ∧
    extractChangedFiles ("M\tfile1.go\nA\tfile2.go\n".toList) =
      [("file1.go".toList), ("file2.go".toList)] ∧
    fallbackMessage ("M\tfile1.go\nA\tfile2.go\n".toList) =
      ("chore: changes to file1.go, file2.go".toList) ∧
    extractChangedFiles ("nofields\nM\ta.go".toList) = [("a.go".toList)] ∧
    fallbackMessage ("M\ta\nM\tb\nM\tc\nM\td\nM\te\nM\tf".toList) =
      ("chore: changes to a, b, c, d, e".toList) := by
  refine ⟨?_, by decide, by decide, by decide, by decide, by decide, by decide⟩
  intro changes
  simp only [fallbackMessage]
  rw [take_goMin]

/-- C6: when the Copilot CLI preflight check fails, `main` exits nonzero
having attempted nothing else: no staging, no commit, no push. -/
theorem claim_C6_preflight_aborts (w : World) (h : w.copilotOK = false) :
    (runMain w).exitCode ≠ 0 ∧
    GitAction.gitAdd ∉ (runMain w).actions ∧
    (∀ m, GitAction.commit m ∉ (runMain w).actions) ∧
    GitAction.push ∉ (runMain w).actions := by
  simp [runMain, h]

/-- C6 (witness): the abort behaviour at a concrete world. -/
theorem claim_C6_witness :
    (runMain ⟨false, true, none, ⟨true, true, true, []⟩, true, true⟩).exitCode ≠ 0 ∧
    GitAction.gitAdd ∉ (runMain ⟨false, true, none, ⟨true, true, true, []⟩, true, true⟩).actions ∧
    (∀ m, GitAction.commit m ∉
      (runMain ⟨false, true, none, ⟨true, true, true, []⟩, true, true⟩).actions) ∧
    GitAction.push ∉ (runMain ⟨false, true, none, ⟨true, true, true, []⟩, true, true⟩).actions :=
  claim_C6_preflight_aborts _ rfl

/-- C7: when the preflight check and staging succeed, the diff is obtained,
and the oracle invocation fails, `main` does not abort: it commits the
normalized fallback message and still attempts the push. -/
theorem claim_C7_oracle_failure_fallback (w : World) (ch : List Char)
    (hcop : w.copilotOK = true) (hadd : w.gitAddOK = true) (hdiff : w.diffOut = some ch)
    (hgen : (generateCommitMessage w.oracle (promptFor ch)).result = none)
    (hcommit : w.commitOK = true) :
    GitAction.commit (enforceConventionalCommit (fallbackMessage ch) ch) ∈ (runMain w).actions ∧
    GitAction.push ∈ (runMain w).actions := by
  cases hpush : w.pushOK <;> simp [runMain, hcop, hadd, hdiff, hgen, hcommit, hpush]

/-- C7 (witness): the fallback-and-push behaviour at a concrete world whose
oracle invocation fails. -/
theorem claim_C7_witness :
    GitAction.commit (enforceConventionalCommit (fallbackMessage ("M\ta.go".toList))
        ("M\ta.go".toList)) ∈
      (runMain ⟨true, true, some ("M\ta.go".toList), ⟨true, true, false, []⟩, true, true⟩).actions ∧
    GitAction.push ∈
      (runMain ⟨true, true, some ("M\ta.go".toList), ⟨true, true, false, []⟩, true, true⟩).actions :=
  claim_C7_oracle_failure_fallback _ _ rfl rfl rfl rfl rfl

/-- C8: on every path of `generateCommitMessage` the temporary file does not
survive the call, and whenever the oracle is invoked the file was created
before the invocation and removed after it (the full event trace). -/
theorem claim_C8_tempfile (env : OracleEnv) (prompt : List Char) :
    tempAliveAfter (generateCommitMessage env prompt).events = false ∧
    (GenEvent.invokeOracle ∈ (generateCommitMessage env prompt).events →
      (generateCommitMessage env prompt).events =
        [GenEvent.createTemp, GenEvent.writePrompt prompt, GenEvent.closeTemp,
         GenEvent.invokeOracle, GenEvent.removeTemp]) := by
  cases hc : env.createOK <;> cases hw : env.writeOK <;> cases hr : env.runOK <;>
    simp [generateCommitMessage, hc, hw, hr, tempAliveAfter]

/-- C8 (witness): the scoped temp-file discipline at a concrete environment. -/
theorem claim_C8_witness :
    tempAliveAfter (generateCommitMessage ⟨true, true, true, ("x".toList)⟩ ("p".toList)).events =
      false ∧
    (generateCommitMessage ⟨true, true, true, ("x".toList)⟩ ("p".toList)).events =
      [GenEvent.createTemp, GenEvent.writePrompt ("p".toList), GenEvent.closeTemp,
       GenEvent.invokeOracle, GenEvent.removeTemp] :=
  ⟨(claim_C8_tempfile ⟨true, true, true, ("x".toList)⟩ ("p".toList)).1,
   (claim_C8_tempfile ⟨true, true, true, ("x".toList)⟩ ("p".toList)).2 (by decide)⟩

/-- C9: the code's format check is prefix-only, so every message it accepts
is returned unchanged in full, including a message with a second sentence and
a second line that the end-anchored grammar rejects. -/
theorem claim_C9_prefix_only :
    (∀ message changes, matchesConventional message = true →
      enforceConventionalCommit message changes = message) ∧
    matchesConventional ("fix: first part. second sentence\nline two".toList) = true ∧
    matchesConventionalAnchored ("fix: first part. second sentence\nline two".toList) = false ∧
    enforceConventionalCommit ("fix: first part. second sentence\nline two".toList) [] =
      ("fix: first part. second sentence\nline two".toList) := by
  refine ⟨?_, by decide, by decide, by decide⟩
  intro message changes h
  simp [enforceConventionalCommit, h]

/-- C9 (witness): pass-through at a concrete accepted message. -/
theorem claim_C9_witness :
    enforceConventionalCommit ("docs: guide".toList) ("z".toList) = ("docs: guide".toList) :=
  claim_C9_prefix_only.1 _ _ (by decide)

/-- C10: `determineCommitType` always returns one of its seven types, and the
rewrite path of `enforceConventionalCommit` never emits `perf`, `ci`,
`build`, or `revert` as the commit type. -/
theorem claim_C10_type_range :
    (∀ text, determineCommitType text ∈
      [("test".toList), ("fix".toList), ("feat".toList), ("docs".toList),
       ("refactor".toList), ("style".toList), ("chore".toList)]) ∧
    (∀ message changes, matchesConventional message = false →
      ∀ t, t ∈ [("perf".toList), ("ci".toList), ("build".toList), ("revert".toList)] →
        List.isPrefixOf (t ++ (": ".toList)) (enforceConventionalCommit message changes) =
          false) := by
  constructor
  · intro text
    rcases determineCommitType_cases text with h | h | h | h | h | h | h <;> rw [h] <;> decide
  · intro message changes hm t ht
    have hout : enforceConventionalCommit message changes =
        determineCommitType changes ++ (": ".toList) ++
          lowerFirst (trimSpace (descSource message)) := by
      simp [enforceConventionalCommit, hm]
    rw [hout]
    simp only [List.mem_cons, List.not_mem_nil, or_false] at ht
    rcases determineCommitType_cases changes with h | h | h | h | h | h | h <;> rw [h] <;>
      rcases ht with rfl | rfl | rfl | rfl <;> rfl

/-- C10 (witness): no extended type heads a concrete rewritten message. -/
theorem claim_C10_witness :
    List.isPrefixOf (("perf".toList) ++ (": ".toList))
      (enforceConventionalCommit ("Tidy things".toList) []) = false :=
  claim_C10_type_range.2 ("Tidy things".toList) [] (by decide) ("perf".toList) (by decide)
